import Mathlib

/-!
Shallow embedding of `src/collate/collate.py` (jbertran/collate).

The embedded core is the path-tree expander:
  - `expand_path_rec` mirrors `expand_path_rec` (collate.py lines 15-39),
  - `validate` mirrors the missing-file check inside `expand_path_data`
    (lines 52-56),
  - `expand_path_data` mirrors `expand_path_data` (lines 42-57),
  - `parse_cli_model` mirrors the error-propagation skeleton of
    `parse_cli` (lines 144-150).

Python values that can reach the expander are modelled by `PyVal`:
strings, dicts (insertion-ordered association lists, as Python dicts
preserve insertion order), lists, and the scalar non-path types that a
JSON document can hold in their place (numbers, booleans).

`pathlib.Path` values are modelled as their string rendering; the `/`
operator (`Path.__truediv__`) is modelled by `pathJoin`: joining with an
empty segment keeps the path, joining with an absolute segment replaces
it, and otherwise the segment is appended after a separator.  Joining a
path with a non-`str` operand raises a `TypeError` in Python; the model
returns the `PyError.typeError` variant in that case.
-/

namespace Collate

/-- A Python value reaching `expand_path_rec`: str, dict, list, or a
scalar non-path JSON type (int, bool). -/
inductive PyVal where
  | str (s : String)
  | dict (entries : List (String × PyVal))
  | list (items : List PyVal)
  | int (n : Int)
  | bool (b : Bool)
  deriving Repr

/-- The name `type(v)` prints for the value, as used in the error
message of `expand_path_rec`. -/
def PyVal.typeName : PyVal → String
  | .str _ => "str"
  | .dict _ => "dict"
  | .list _ => "list"
  | .int _ => "int"
  | .bool _ => "bool"

/-- The exceptions the embedded fragment can raise. -/
inductive PyError where
  /-- the explicit `raise Exception('Expected str, dict or list, got ...')`
  at collate.py line 37 -/
  | invalidShape (tyName : String)
  /-- the `TypeError` that `pathlib` raises when `path / item` is given a
  non-`str`, non-path operand -/
  | typeError (tyName : String)
  /-- the `raise Exception('Missing files: ...')` at collate.py line 54 -/
  | missingFiles (paths : List String)
  deriving Repr, DecidableEq

/-- `pathlib`'s `path_prefix / seg` on the string rendering: an empty
segment is a no-op, an absolute segment replaces the prefix, otherwise
the segment is appended after a separator. -/
def pathJoin (p s : String) : String :=
  if s.data.isEmpty then p
  else if s.data.head? = some '/' then s
  else p ++ "/" ++ s

mutual

/-- `expand_path_rec` (collate.py lines 15-39): dicts recurse with the
prefix extended by the key; lists recurse into dict items with the
unchanged prefix and join any other item onto the prefix; anything else
raises the shape error. -/
def expand_path_rec : PyVal → String → Except PyError (List String)
  | .dict entries, p => expandEntries entries p
  | .list items, p => expandItems items p
  | v, _ => .error (.invalidShape v.typeName)

/-- The dict branch (lines 24-28): expand each value with the prefix
extended by its key, in insertion order, and concatenate. -/
def expandEntries : List (String × PyVal) → String → Except PyError (List String)
  | [], _ => .ok []
  | (k, v) :: rest, p => do
    let a ← expand_path_rec v (pathJoin p k)
    let b ← expandEntries rest p
    .ok (a ++ b)

/-- The list branch (lines 29-36): dict items are expanded with the
unchanged prefix; a string item is joined onto the prefix; any other
item makes `path_prefix / item` raise `TypeError`. -/
def expandItems : List PyVal → String → Except PyError (List String)
  | [], _ => .ok []
  | .dict entries :: rest, p => do
    let a ← expand_path_rec (.dict entries) p
    let b ← expandItems rest p
    .ok (a ++ b)
  | .str s :: rest, p => do
    let b ← expandItems rest p
    .ok (pathJoin p s :: b)
  | item :: _, _ => .error (.typeError item.typeName)

end

/-- The missing-file check inside `expand_path_data` (collate.py lines
52-56): collect every path that is not an existing regular file, in
order; raise `Missing files` when any, else return the paths unchanged.
The filesystem is abstracted as the predicate `isFile`. -/
def validate (isFile : String → Bool) (paths : List String) :
    Except PyError (List String) :=
  let errors := paths.filter (fun q => !(isFile q))
  if errors.isEmpty then .ok paths
  else .error (.missingFiles errors)

/-- `expand_path_data` (collate.py lines 42-57): expand, then run the
missing-file check. -/
def expand_path_data (isFile : String → Bool) (path_data : PyVal)
    (path_base : String) : Except PyError (List String) := do
  let paths ← expand_path_rec path_data path_base
  validate isFile paths

/-- `str(exc)` for each modelled exception. -/
def PyError.message : PyError → String
  | .invalidShape ty => "Expected str, dict or list, got class " ++ ty
  | .typeError ty =>
      "argument should be a str or an os.PathLike object, not class " ++ ty
  | .missingFiles paths =>
      "Missing files: \n\t" ++ String.intercalate "\n\t" paths

/-- Outcome of one CLI invocation: either the expanded input list is
handed to the external-command step (`execute`, collate.py line 150), or
the run aborts first with a printed message and an exit status. -/
inductive CliOutcome where
  | exec (inputs : List String) (output : String)
  | abort (msg : String) (exitCode : Nat)
  deriving Repr, DecidableEq

/-- The error-propagation skeleton of `parse_cli` (collate.py lines
144-150): any exception out of `expand_path_data` is printed and the
process exits with status 1; only on success is the input list handed to
the command-execution step. -/
def parse_cli_model (isFile : String → Bool) (data : PyVal)
    (context output : String) : CliOutcome :=
  match expand_path_data isFile data context with
  | .error exc => .abort exc.message 1
  | .ok input_list => .exec input_list output

/-- A non-empty path segment containing no path separator. -/
def segOk (s : String) : Bool :=
  !(s.data.isEmpty) && !(s.data.contains '/')

mutual

/-- The value is built from Branches (dicts), Groups (lists) and Leaves
(strings) only. -/
def wellFormed : PyVal → Bool
  | .str _ => true
  | .dict entries => wellFormedEntries entries
  | .list items => wellFormedItems items
  | _ => false

def wellFormedEntries : List (String × PyVal) → Bool
  | [] => true
  | (_, v) :: rest => wellFormed v && wellFormedEntries rest

def wellFormedItems : List PyVal → Bool
  | [] => true
  | v :: rest => wellFormed v && wellFormedItems rest

end

mutual

/-- A PathTree all of whose Branch keys and Leaf strings are non-empty
segments free of path separators. -/
def goodSegs : PyVal → Bool
  | .str s => segOk s
  | .dict entries => goodSegsEntries entries
  | .list items => goodSegsItems items
  | _ => false

def goodSegsEntries : List (String × PyVal) → Bool
  | [] => true
  | (k, v) :: rest => segOk k && goodSegs v && goodSegsEntries rest

def goodSegsItems : List PyVal → Bool
  | [] => true
  | v :: rest => goodSegs v && goodSegsItems rest

end

mutual

/-- Number of Leaf (string) occurrences in the value. -/
def countLeaves : PyVal → Nat
  | .str _ => 1
  | .dict entries => countLeavesEntries entries
  | .list items => countLeavesItems items
  | _ => 0

def countLeavesEntries : List (String × PyVal) → Nat
  | [] => 0
  | (_, v) :: rest => countLeaves v + countLeavesEntries rest

def countLeavesItems : List PyVal → Nat
  | [] => 0
  | v :: rest => countLeaves v + countLeavesItems rest

end

/-- Induction motive: a successful expansion from a separator-clean
value only produces paths extending the prefix, one per Leaf. -/
def GoodExpand (v : PyVal) (p : String) : Prop :=
  ∀ paths, goodSegs v = true → expand_path_rec v p = .ok paths →
    (∀ q ∈ paths, ∃ t, q = p ++ t) ∧ paths.length = countLeaves v

/-- `GoodExpand`, for the list branch. -/
def GoodExpandItems (items : List PyVal) (p : String) : Prop :=
  ∀ paths, goodSegsItems items = true → expandItems items p = .ok paths →
    (∀ q ∈ paths, ∃ t, q = p ++ t) ∧ paths.length = countLeavesItems items

/-- `GoodExpand`, for the dict branch. -/
def GoodExpandEntries (entries : List (String × PyVal)) (p : String) : Prop :=
  ∀ paths, goodSegsEntries entries = true → expandEntries entries p = .ok paths →
    (∀ q ∈ paths, ∃ t, q = p ++ t) ∧ paths.length = countLeavesEntries entries

/-- A scalar non-path value: an int or a bool. -/
def PyVal.isScalar : PyVal → Bool
  | .int _ => true
  | .bool _ => true
  | _ => false

/-- Joining a separator-free, non-empty segment appends it after a
slash. -/
theorem pathJoin_eq_append (p s : String) (h : segOk s = true) :
    pathJoin p s = p ++ "/" ++ s := by
  unfold segOk at h
  simp only [Bool.and_eq_true, Bool.not_eq_true'] at h
  obtain ⟨h1, h2⟩ := h
  unfold pathJoin
  rw [h1]
  simp only [Bool.false_eq_true, if_false]
  cases hd : s.data with
  | nil => rw [hd] at h1; simp at h1
  | cons c cs =>
    have hc : c ≠ '/' := by
      intro hc
      rw [hd, hc] at h2
      simp [List.contains] at h2
    simp [hc]

theorem goodExpand_all (v : PyVal) (p : String) : GoodExpand v p := by
  refine expand_path_rec.induct GoodExpand GoodExpandItems GoodExpandEntries
    ?_ ?_ ?_ ?_ ?_ ?_ ?_ ?_ ?_ v p
  · -- dict node: defer to the entries motive
    intro entries p ih paths hg he
    simp only [goodSegs] at hg
    simp only [expand_path_rec] at he
    simpa only [countLeaves] using ih paths hg he
  · -- list node: defer to the items motive
    intro items p ih paths hg he
    simp only [goodSegs] at hg
    simp only [expand_path_rec] at he
    simpa only [countLeaves] using ih paths hg he
  · -- fallback node: expansion returns an error, so the claim is vacuous
    intro v p hnd hnl paths hg he
    cases v with
    | dict entries => exact absurd rfl (hnd entries)
    | list items => exact absurd rfl (hnl items)
    | str s => simp [expand_path_rec] at he
    | int n => simp [expand_path_rec] at he
    | bool b => simp [expand_path_rec] at he
  · -- empty dict
    intro p paths hg he
    simp only [expandEntries, Except.ok.injEq] at he
    subst he
    simp [countLeavesEntries]
  · -- dict entry: the key extends the prefix for the sub-expansion
    intro k v rest p ih1 ih2 paths hg he
    simp only [goodSegsEntries, Bool.and_eq_true] at hg
    obtain ⟨⟨hk, hv⟩, hrest⟩ := hg
    simp only [expandEntries, Bind.bind] at he
    cases ha : expand_path_rec v (pathJoin p k) with
    | error e => rw [ha] at he; simp [Except.bind] at he
    | ok a =>
      rw [ha] at he
      cases hb : expandEntries rest p with
      | error e => rw [hb] at he; simp [Except.bind] at he
      | ok b =>
        rw [hb] at he
        simp only [Except.bind, Except.ok.injEq] at he
        subst he
        obtain ⟨pa, la⟩ := ih1 a hv ha
        obtain ⟨pb, lb⟩ := ih2 b hrest hb
        constructor
        · intro q hq
          rcases List.mem_append.mp hq with hqa | hqb
          · obtain ⟨t, ht⟩ := pa q hqa
            refine ⟨"/" ++ k ++ t, ?_⟩
            rw [ht, pathJoin_eq_append p k hk]
            simp [String.append_assoc]
          · exact pb q hqb
        · simp only [List.length_append, countLeavesEntries, la, lb]
  · -- empty list
    intro p paths hg he
    simp only [expandItems, Except.ok.injEq] at he
    subst he
    simp [countLeavesItems]
  · -- dict item: expanded with the unchanged prefix
    intro entries rest p ih1 ih2 paths hg he
    simp only [goodSegsItems, Bool.and_eq_true] at hg
    obtain ⟨hv, hrest⟩ := hg
    simp only [expandItems, Bind.bind] at he
    cases ha : expand_path_rec (.dict entries) p with
    | error e => rw [ha] at he; simp [Except.bind] at he
    | ok a =>
      rw [ha] at he
      cases hb : expandItems rest p with
      | error e => rw [hb] at he; simp [Except.bind] at he
      | ok b =>
        rw [hb] at he
        simp only [Except.bind, Except.ok.injEq] at he
        subst he
        obtain ⟨pa, la⟩ := ih1 a hv ha
        obtain ⟨pb, lb⟩ := ih2 b hrest hb
        constructor
        · intro q hq
          rcases List.mem_append.mp hq with hqa | hqb
          · exact pa q hqa
          · exact pb q hqb
        · simp only [List.length_append, countLeavesItems, la, lb, countLeaves]
  · -- string item: one resolved path extending the prefix
    intro s rest p ih paths hg he
    simp only [goodSegsItems, goodSegs, Bool.and_eq_true] at hg
    obtain ⟨hs, hrest⟩ := hg
    simp only [expandItems, Bind.bind] at he
    cases hb : expandItems rest p with
    | error e => rw [hb] at he; simp [Except.bind] at he
    | ok b =>
      rw [hb] at he
      simp only [Except.bind, Except.ok.injEq] at he
      subst he
      obtain ⟨pb, lb⟩ := ih b hrest hb
      constructor
      · intro q hq
        rcases List.mem_cons.mp hq with hq1 | hqb
        · refine ⟨"/" ++ s, ?_⟩
          rw [hq1, pathJoin_eq_append p s hs]
          simp [String.append_assoc]
        · exact pb q hqb
      · simp only [List.length_cons, countLeavesItems, countLeaves, lb]
        omega
  · -- non-dict, non-string item: joining raises, so the claim is vacuous
    intro item tail p hnd hns paths hg he
    cases item with
    | dict entries => exact absurd rfl (hnd entries)
    | str s => exact absurd rfl (hns s)
    | list items => simp [expandItems] at he
    | int n => simp [expandItems] at he
    | bool b => simp [expandItems] at he

/-- C1: expanding the Branch tree with entries a -> [x, y] and
b -> [z] from base prefix /root yields exactly the ordered sequence
[/root/a/x, /root/a/y, /root/b/z]: entries are visited in insertion
order and each key extends the prefix by one segment. -/
theorem C1_order_preservation :
    expand_path_rec
      (.dict [("a", .list [.str "x", .str "y"]), ("b", .list [.str "z"])])
      "/root"
    = .ok ["/root/a/x", "/root/a/y", "/root/b/z"] := rfl

/-- C2 (counterexample): the claim says a Group element that is itself a
Group is recursively expanded with the unchanged base prefix, so
expanding the group [[y]] from /root would yield [/root/y]; the code
instead raises the TypeError from joining the prefix with a list. -/
theorem C2_counterexample :
    expand_path_rec (.list [.list [.str "y"]]) "/root"
        = .error (.typeError "list") ∧
    expand_path_rec (.list [.list [.str "y"]]) "/root"
        ≠ .ok ["/root/y"] := by
  refine ⟨rfl, fun h => ?_⟩
  exact Except.noConfusion
    ((rfl :
        expand_path_rec (.list [.list [.str "y"]]) "/root"
          = Except.error (.typeError "list")).symm.trans h)

/-- C2 (amended): Group elements are processed left to right; a Branch
(dict) element is recursively expanded with the unchanged base prefix, a
string element is appended as the prefix joined with the string, and an
element of any other type -- including a nested Group (list) -- is not
recursed into: joining the prefix with it fails with a TypeError naming
the element type. Results are concatenated in element order. -/
theorem C2_group_elements (p : String) :
    (expand_path_rec (.list []) p = .ok []) ∧
    (∀ (entries : List (String × PyVal)) (rest : List PyVal),
      expand_path_rec (.list (.dict entries :: rest)) p =
        (do
          let a ← expand_path_rec (.dict entries) p
          let b ← expand_path_rec (.list rest) p
          Except.ok (a ++ b))) ∧
    (∀ (s : String) (rest : List PyVal),
      expand_path_rec (.list (.str s :: rest)) p =
        (do
          let b ← expand_path_rec (.list rest) p
          Except.ok (pathJoin p s :: b))) ∧
    (∀ (items rest : List PyVal),
      expand_path_rec (.list (.list items :: rest)) p
        = .error (.typeError "list")) ∧
    (∀ (n : Int) (rest : List PyVal),
      expand_path_rec (.list (.int n :: rest)) p
        = .error (.typeError "int")) ∧
    (∀ (b : Bool) (rest : List PyVal),
      expand_path_rec (.list (.bool b :: rest)) p
        = .error (.typeError "bool")) :=
  ⟨rfl, fun _ _ => rfl, fun _ _ => rfl, fun _ _ => rfl,
    fun _ _ => rfl, fun _ _ => rfl⟩

/-- C3 (counterexample): the claim says a non-string, non-dict,
non-list value in leaf position fails with InvalidShape; for the int 3
as a Group element the code instead fails with the TypeError from
joining the prefix with the value. -/
theorem C3_counterexample :
    expand_path_rec (.list [.int 3]) "/root" = .error (.typeError "int") ∧
    expand_path_rec (.list [.int 3]) "/root"
        ≠ .error (.invalidShape "int") := by
  refine ⟨rfl, fun h => ?_⟩
  have h2 :
      (Except.error (PyError.typeError "int") : Except PyError (List String))
        = .error (.invalidShape "int") :=
    (rfl :
        expand_path_rec (.list [.int 3]) "/root"
          = Except.error (.typeError "int")).symm.trans h
  exact PyError.noConfusion (Except.error.inj h2)

/-- C3 (amended): a non-string, non-dict, non-list value makes
expansion fail with an error naming its type, but the error kind
depends on the position: as the tree itself or as a dict value the
failure is the InvalidShape error, while as a list element (leaf
position) it is the TypeError from joining the prefix with the value,
not InvalidShape. -/
theorem C3_scalar_errors (v : PyVal) (p : String) (h : v.isScalar = true) :
    expand_path_rec v p = .error (.invalidShape v.typeName) ∧
    (∀ (k : String) (rest : List (String × PyVal)),
      expand_path_rec (.dict ((k, v) :: rest)) p
        = .error (.invalidShape v.typeName)) ∧
    (∀ (rest : List PyVal),
      expand_path_rec (.list (v :: rest)) p
        = .error (.typeError v.typeName)) := by
  cases v with
  | int n =>
    refine ⟨rfl, ?_, fun rest => rfl⟩
    intro k rest
    simp [expand_path_rec, expandEntries, Bind.bind, Except.bind,
      PyVal.typeName]
  | bool b =>
    refine ⟨rfl, ?_, fun rest => rfl⟩
    intro k rest
    simp [expand_path_rec, expandEntries, Bind.bind, Except.bind,
      PyVal.typeName]
  | str s => simp [PyVal.isScalar] at h
  | dict entries => simp [PyVal.isScalar] at h
  | list items => simp [PyVal.isScalar] at h

/-- C3 (witness): the amended claim at the int 3 under base /root, in
the three positions. -/
theorem C3_scalar_errors_witness :
    expand_path_rec (.int 3) "/root" = .error (.invalidShape "int") ∧
    expand_path_rec (.dict [("k", .int 3)]) "/root"
        = .error (.invalidShape "int") ∧
    expand_path_rec (.list [.int 3]) "/root"
        = .error (.typeError "int") := by
  obtain ⟨h1, h2, h3⟩ := C3_scalar_errors (.int 3) "/root" rfl
  exact ⟨h1, h2 "k" [], h3 []⟩

/-- C4: when some path in the sequence fails the regular-file check,
validation reports the MissingFiles error whose list contains exactly
the failing paths, in their relative input order (a sublist of the
input), and none of the passing ones. -/
theorem C4_validate_reports_all (isFile : String → Bool)
    (paths : List String) (h : ∃ q ∈ paths, isFile q = false) :
    ∃ bad, validate isFile paths = .error (.missingFiles bad) ∧
      bad.Sublist paths ∧
      (∀ q, q ∈ bad ↔ (q ∈ paths ∧ isFile q = false)) := by
  refine ⟨paths.filter (fun q => !(isFile q)), ?_,
    List.filter_sublist paths, ?_⟩
  · have hne : (paths.filter (fun q => !(isFile q))).isEmpty = false := by
      obtain ⟨q, hq, hf⟩ := h
      rw [Bool.eq_false_iff]
      intro hempty
      rw [List.isEmpty_iff] at hempty
      have hmem : q ∈ paths.filter (fun r => !(isFile r)) :=
        List.mem_filter.mpr ⟨hq, by rw [hf]; rfl⟩
      rw [hempty] at hmem
      exact List.not_mem_nil q hmem
    simp [validate, hne]
  · intro q
    rw [List.mem_filter]
    simp

/-- C4 (witness): with only /a present on the filesystem, validating
[/a, /b] reports exactly /b. -/
theorem C4_validate_reports_all_witness :
    (∃ q ∈ (["/a", "/b"] : List String), (fun r => r == "/a") q = false) ∧
    (∃ bad, validate (fun r => r == "/a") ["/a", "/b"]
          = .error (.missingFiles bad) ∧
        bad.Sublist ["/a", "/b"] ∧
        (∀ q, q ∈ bad ↔
          (q ∈ (["/a", "/b"] : List String) ∧ (fun r => r == "/a") q = false))) := by
  have h : ∃ q ∈ (["/a", "/b"] : List String), (fun r => r == "/a") q = false :=
    ⟨"/b", by simp, by decide⟩
  exact ⟨h, C4_validate_reports_all _ _ h⟩

/-- C5: when every path in the sequence passes the regular-file check,
validation returns the original ordered sequence unchanged. -/
theorem C5_validate_identity (isFile : String → Bool) (paths : List String)
    (h : ∀ q ∈ paths, isFile q = true) :
    validate isFile paths = .ok paths := by
  have hnil : paths.filter (fun q => !(isFile q)) = [] := by
    rw [List.filter_eq_nil_iff]
    intro a ha
    rw [h a ha]
    simp
  simp [validate, hnil]

/-- C5 (witness): an all-present two-path sequence is returned
unchanged. -/
theorem C5_validate_identity_witness :
    validate (fun _ => true) ["/a", "/b"] = .ok ["/a", "/b"] :=
  C5_validate_identity (fun _ => true) ["/a", "/b"] (fun _ _ => rfl)

/-- C6: expanding the nested Branch tree a -> (b -> [x]) from base
prefix /root yields exactly [/root/a/b/x]: each Branch level adds one
path segment between the base and the leaf. -/
theorem C6_nested_branches :
    expand_path_rec (.dict [("a", .dict [("b", .list [.str "x"])])]) "/root"
      = .ok ["/root/a/b/x"] := rfl

/-- C7: on PathTrees built only from Branches, Groups and Leaves,
expansion is deterministic: two calls on the same tree and base prefix
yield the identical ordered sequence. -/
theorem C7_deterministic (v : PyVal) (p : String)
    (_h : wellFormed v = true) :
    expand_path_rec v p = expand_path_rec v p := rfl

/-- C7 (witness): determinism at a concrete well-formed tree. -/
theorem C7_deterministic_witness :
    wellFormed (.dict [("a", .list [.str "x"])]) = true ∧
    expand_path_rec (.dict [("a", .list [.str "x"])]) "/root"
      = expand_path_rec (.dict [("a", .list [.str "x"])]) "/root" :=
  ⟨rfl, C7_deterministic (.dict [("a", .list [.str "x"])]) "/root" rfl⟩

/-- C8: the code rejects a bare string passed as the tree argument,
raising the shape error -- even though its own message lists str among
the expected types, and the spec admits a Leaf as a valid PathTree.
This evaluates the code at the failing input. -/
theorem C8_bare_string_rejected :
    expand_path_rec (.str "file.pdf") "/root"
      = .error (.invalidShape "str") := rfl

/-- C9: whenever `expand_path_data` fails (InvalidShape, TypeError or
MissingFiles), the invocation aborts with exit status 1 and the
command-execution step is never reached. -/
theorem C9_abort_before_execute (isFile : String → Bool) (data : PyVal)
    (context output : String)
    (h : ∃ e, expand_path_data isFile data context = .error e) :
    (∃ msg, parse_cli_model isFile data context output = .abort msg 1) ∧
    (∀ inputs out,
      parse_cli_model isFile data context output ≠ .exec inputs out) := by
  obtain ⟨e, he⟩ := h
  refine ⟨⟨e.message, ?_⟩, ?_⟩
  · simp [parse_cli_model, he]
  · intro inputs out hc
    rw [parse_cli_model, he] at hc
    exact CliOutcome.noConfusion hc

/-- C9 (witness): an invalid tree (the int 3) aborts the invocation
with status 1 and never reaches the command-execution step. -/
theorem C9_abort_before_execute_witness :
    (∃ e, expand_path_data (fun _ => true) (.int 3) "/root" = .error e) ∧
    ((∃ msg, parse_cli_model (fun _ => true) (.int 3) "/root" "out.pdf"
        = .abort msg 1) ∧
      (∀ inputs out,
        parse_cli_model (fun _ => true) (.int 3) "/root" "out.pdf"
          ≠ .exec inputs out)) :=
  ⟨⟨.invalidShape "int", rfl⟩,
    C9_abort_before_execute (fun _ => true) (.int 3) "/root" "out.pdf"
      ⟨.invalidShape "int", rfl⟩⟩

/-- C10: on a tree whose Branch keys and Leaf strings are all
non-empty, separator-free segments, every path a successful expansion
resolves extends the supplied base prefix, and the number of resolved
paths equals the number of Leaf occurrences in the tree. -/
theorem C10_prefix_and_leaf_count (v : PyVal) (p : String)
    (paths : List String) (h1 : goodSegs v = true)
    (h2 : expand_path_rec v p = .ok paths) :
    (∀ q ∈ paths, ∃ t, q = p ++ t) ∧ paths.length = countLeaves v :=
  goodExpand_all v p paths h1 h2

/-- C10 (witness): the invariant at a concrete mixed tree under base
/root. -/
theorem C10_prefix_and_leaf_count_witness :
    goodSegs (.dict [("a", .list [.str "x", .str "y"])]) = true ∧
    ((∀ q ∈ (["/root/a/x", "/root/a/y"] : List String),
        ∃ t, q = "/root" ++ t) ∧
      (["/root/a/x", "/root/a/y"] : List String).length
        = countLeaves (.dict [("a", .list [.str "x", .str "y"])])) := by
  have h1 : goodSegs (.dict [("a", .list [.str "x", .str "y"])]) = true := by
    decide
  exact ⟨h1,
    C10_prefix_and_leaf_count (.dict [("a", .list [.str "x", .str "y"])])
      "/root" ["/root/a/x", "/root/a/y"] h1 rfl⟩

end Collate
